import Mathlib

set_option maxHeartbeats 1000000

/-!
Shallow embedding of the NRS (name resolution system) map core of sn_api,
src/app/nrs/nrs_map.rs.

The map associates subname-path keys with XOR-URL locator values.  The
external collaborators of the core (the URL parser behind Safe::parse_url
together with its ContentType, DataType and content-version accessors) are
modelled from the spec as explicit data, and the parser itself is threaded
through as a function parameter.  Strings that the Rust code manipulates
character by character (str::replace, split and join) are embedded through
their character lists.
-/

/-- Subname keys of the NRS map (Rust: pub(crate) type SubName = String). -/
abbrev SubName := String

/-- Locator values of the NRS map (Rust: XorUrl, an alias of String). -/
abbrev XorUrl := String

/-- Modelled from the spec: the content-type classification produced by the
external locator parser.  The validator rule references FilesContainer and
NrsMapContainer; the other variants stand for the non-versionable
content-type classifications. -/
inductive ContentType where
  | Raw
  | Wallet
  | FilesContainer
  | NrsMapContainer
  | Multimap
deriving DecidableEq

/-- Modelled from the spec: the data-type classification produced by the
external locator parser.  The validator rule references Register; the other
variants stand for the remaining data-type classifications. -/
inductive DataType where
  | SafeKey
  | File
  | Register
  | Spentbook
deriving DecidableEq

/-- Modelled from the spec: display text of a content type, used in the
validator's error message. -/
def ContentType.display : ContentType → String
  | ContentType.Raw => "Raw"
  | ContentType.Wallet => "Wallet"
  | ContentType.FilesContainer => "FilesContainer"
  | ContentType.NrsMapContainer => "NrsMapContainer"
  | ContentType.Multimap => "Multimap"

/-- Modelled from the spec: display text of a data type, used in the
validator's error message. -/
def DataType.display : DataType → String
  | DataType.SafeKey => "SafeKey"
  | DataType.File => "File"
  | DataType.Register => "Register"
  | DataType.Spentbook => "Spentbook"

/-- Modelled from the spec: the decoded form of a content locator, i.e. the
record the external locator parser returns: a content-type classification, a
data-type classification, and an optional version anchor (an opaque hash). -/
structure ParsedUrl where
  content_type : ContentType
  data_type : DataType
  content_version : Option String
deriving DecidableEq

/-- Errors of the core.  ContentError carries the NotFound conditions of the
spec, InvalidInput the ValidationError condition; Other stands for the many
remaining variants of the crate's error enum, which this core never produces
itself but the external parser may return. -/
inductive Error where
  | ContentError : String → Error
  | InvalidInput : String → Error
  | Other : String → Error
deriving DecidableEq

instance {ε α : Type} [DecidableEq ε] [DecidableEq α] : DecidableEq (Except ε α) :=
  fun x y =>
    match x, y with
    | Except.ok a, Except.ok b =>
      if h : a = b then isTrue (by rw [h]) else isFalse (fun hh => h (Except.ok.inj hh))
    | Except.error a, Except.error b =>
      if h : a = b then isTrue (by rw [h]) else isFalse (fun hh => h (Except.error.inj hh))
    | Except.ok _, Except.error _ => isFalse (fun hh => Except.noConfusion hh)
    | Except.error _, Except.ok _ => isFalse (fun hh => Except.noConfusion hh)

/-- Recognises the NotFound errors of the spec (Error::ContentError). -/
def Error.isNotFound : Error → Bool
  | Error.ContentError _ => true
  | _ => false

/-- Recognises the ValidationError of the spec (Error::InvalidInput). -/
def Error.isValidationError : Error → Bool
  | Error.InvalidInput _ => true
  | _ => false

/-- A result that failed with a NotFound error. -/
def failsNotFound (r : Except Error XorUrl) : Bool :=
  match r with
  | Except.error e => e.isNotFound
  | Except.ok _ => false

/-- A result that failed with a ValidationError. -/
def failsValidation (r : Except Error XorUrl) : Bool :=
  match r with
  | Except.error e => e.isValidationError
  | Except.ok _ => false

/-- Modelled from the spec: the external locator parser (Safe::parse_url),
taken as a parameter by the functions that consume it. -/
abbrev LinkDecoder := String → Except Error ParsedUrl

/-- Character list of the scheme text "safe://". -/
def scheme_chars : List Char := "safe://".data

/-- Embeds Rust str::replace(s, pat, rep) for a nonempty pattern: scan left
to right, replacing each leftmost non-overlapping occurrence of pat by rep.
The Nat argument is structural recursion fuel; at least one character is
consumed per step, so fuel = s.length computes the whole function (see
str_replace).  The call in the source uses the nonempty pattern "safe://";
the empty-pattern behaviour of Rust is out of scope. -/
def str_replace_fuel (pat rep : List Char) : Nat → List Char → List Char
  | _, [] => []
  | 0, s => s
  | fuel + 1, c :: rest =>
    if pat.isPrefixOf (c :: rest) ∧ pat ≠ [] then
      rep ++ str_replace_fuel pat rep fuel (List.drop pat.length (c :: rest))
    else
      c :: str_replace_fuel pat rep fuel rest

/-- Embeds Rust str::replace(s, pat, rep) (nonempty pattern). -/
def str_replace (pat rep s : List Char) : List Char :=
  str_replace_fuel pat rep s.length s

/-- Embeds Rust split('.') on a character list: split at every dot, keeping
empty pieces; the empty string yields one empty piece.  The inner match's
nil arm is unreachable since the function never returns an empty list. -/
def split_on_dot : List Char → List (List Char)
  | [] => [[]]
  | c :: rest =>
    if c = '.' then [] :: split_on_dot rest
    else
      match split_on_dot rest with
      | [] => [[c]]
      | p :: ps => (c :: p) :: ps

/-- Embeds Rust Vec::join(".") on character lists: the pieces interleaved
with single dots. -/
def join_with_dot : List (List Char) → List Char
  | [] => []
  | [p] => p
  | p :: ps => p ++ '.' :: join_with_dot ps

/-- Decides whether pat occurs as a contiguous substring anywhere in the
list: it is a prefix of some suffix. -/
def occurs_in (pat : List Char) : List Char → Bool
  | [] => pat.isPrefixOf []
  | c :: rest => pat.isPrefixOf (c :: rest) || occurs_in pat rest

/-- Embeds parse_out_subnames: removes the top name from a given name.  The
Rust code first removes every occurrence of "safe://" via str::replace (not
only a leading scheme prefix), then splits on dots, drops the last label
(the top name) and rejoins the remaining labels with dots. -/
def parse_out_subnames (name : String) : String :=
  let sanitized_name := str_replace scheme_chars [] name.data
  let parts := split_on_dot sanitized_name
  String.mk (join_with_dot parts.dropLast)

/-- Embeds sub_names_vec_to_str: every subname except the last is rendered
with a trailing dot, and the rendered pieces are concatenated. -/
def sub_names_vec_to_str (sub_names : List SubName) : String :=
  if !sub_names.isEmpty then
    let length := sub_names.length - 1
    String.join ((sub_names.enum).map
      (fun p => if p.1 < length then p.2 ++ "." else p.2))
  else ""

/-- Embeds validate_nrs_link.  Safe::parse_url is the external locator
parser, passed in as the decoder P.  An unversioned link to a
FilesContainer or NrsMapContainer content type, or to a Register data type,
is rejected with Error::InvalidInput. -/
def validate_nrs_link (P : LinkDecoder) (link : String) : Except Error Unit :=
  match P link with
  | Except.error e => Except.error e
  | Except.ok link_encoder =>
    if link_encoder.content_version = none then
      let content_type := link_encoder.content_type
      let data_type := link_encoder.data_type
      if content_type = ContentType.FilesContainer
          ∨ content_type = ContentType.NrsMapContainer then
        Except.error (Error.InvalidInput
          ("The linked content (" ++ content_type.display ++
            ") is versionable, therefore NRS requires the link to specify a hash: \"" ++
            link ++ "\""))
      else if data_type = DataType.Register then
        Except.error (Error.InvalidInput
          ("The linked content (" ++ data_type.display ++
            ") is versionable, therefore NRS requires the link to specify a hash: \"" ++
            link ++ "\""))
      else Except.ok ()
    else Except.ok ()

/-- Embeds the NrsMap struct: a BTreeMap from SubName to XorUrl, modelled as
an association list whose keys are unique. -/
structure NrsMap where
  map : AList (fun _ : SubName => XorUrl)

/-- Embeds NrsMap::get_link_for: exact-match lookup of a subname key. -/
def NrsMap.get_link_for (self : NrsMap) (sub_name : String) : Except Error XorUrl :=
  match self.map.lookup sub_name with
  | some link => Except.ok link
  | none => Except.error (Error.ContentError
      ("Link not found in NRS Map Container for: " ++ sub_name))

/-- Embeds NrsMap::resolve_for_subnames. -/
def NrsMap.resolve_for_subnames (self : NrsMap) (sub_names : List SubName) :
    Except Error XorUrl :=
  self.get_link_for (sub_names_vec_to_str sub_names)

/-- Embeds NrsMap::get_default_link. -/
def NrsMap.get_default_link (self : NrsMap) : Except Error XorUrl :=
  self.get_link_for ""

/-- Embeds NrsMap::nrs_map_remove_subname.  The &mut self receiver becomes
an explicit result state; BTreeMap::remove both deletes the key and returns
the removed value, embedded here as a lookup followed by an erase. -/
def NrsMap.nrs_map_remove_subname (self : NrsMap) (name : String) :
    NrsMap × Except Error String :=
  match self.map.lookup name with
  | some link => (⟨self.map.erase name⟩, Except.ok link)
  | none => (self, Except.error (Error.ContentError
      "Sub name not found in NRS Map Container"))

/-- Embeds NrsMap::update.  The ? on validate_nrs_link returns the error and
leaves the map untouched; otherwise the derived subname key is overwritten
with the link and the link is returned. -/
def NrsMap.update (P : LinkDecoder) (self : NrsMap) (name link : String) :
    NrsMap × Except Error String :=
  match validate_nrs_link P link with
  | Except.error e => (self, Except.error e)
  | Except.ok _ =>
    let subname := parse_out_subnames name
    (⟨self.map.insert subname link⟩, Except.ok link)

/-- Spec 4.1, wording of claim C9: join labels with a dot between
consecutive labels; the empty sequence yields the empty string and a single
label is returned unchanged. -/
def join_labels_spec : List String → String
  | [] => ""
  | [s] => s
  | s :: rest => s ++ "." ++ join_labels_spec rest

/-- Spec-worded removal of every occurrence of a (nonempty) pattern from a
character list, used to state the amended claim C8: whenever the pattern
starts at the current position it is dropped and scanning resumes after it,
otherwise the current character is kept. -/
def strip_all_occurrences (pat : List Char) : List Char → List Char
  | [] => []
  | c :: rest =>
    if h : pat.isPrefixOf (c :: rest) ∧ pat ≠ [] then
      strip_all_occurrences pat (List.drop pat.length (c :: rest))
    else
      c :: strip_all_occurrences pat rest
termination_by l => l.length
decreasing_by
  · simp only [List.length_drop, List.length_cons]
    have hp : 0 < pat.length := List.length_pos.mpr h.2
    omega
  · simp only [List.length_cons]
    omega

/-- Claim C8 as stated: strip the scheme prefix only when it occurs at the
start of the name, leave the rest of the string intact, then split on dots,
drop the last label and rejoin with dots. -/
def derive_subname_path_claim (full_name : String) : String :=
  let rest :=
    if scheme_chars.isPrefixOf full_name.data then
      List.drop scheme_chars.length full_name.data
    else full_name.data
  String.mk (join_with_dot (split_on_dot rest).dropLast)

/-- A decoder mapping every locator to a version-anchored FilesContainer. -/
def decoder_files_versioned : LinkDecoder :=
  fun _ => Except.ok ⟨ContentType.FilesContainer, DataType.Register, some "h1"⟩

/-- A decoder mapping every locator to an unversioned FilesContainer. -/
def decoder_files_unversioned : LinkDecoder :=
  fun _ => Except.ok ⟨ContentType.FilesContainer, DataType.File, none⟩

/-- A decoder mapping every locator to an unversioned raw blob. -/
def decoder_raw_unversioned : LinkDecoder :=
  fun _ => Except.ok ⟨ContentType.Raw, DataType.File, none⟩

/-- A one-entry example map binding the subname "sub". -/
def map_example : NrsMap := ⟨AList.insert "sub" "safe://eg2" ∅⟩

/-- The empty map. -/
def map_empty : NrsMap := ⟨∅⟩

/-! ### Helper lemmas -/

theorem str_replace_fuel_id (pat rep : List Char) :
    ∀ (fuel : Nat) (l : List Char), occurs_in pat l = false →
      str_replace_fuel pat rep fuel l = l := by
  intro fuel
  induction fuel with
  | zero => intro l _; cases l <;> rfl
  | succ f ih =>
    intro l h
    cases l with
    | nil => rfl
    | cons c rest =>
      have h2 : (pat.isPrefixOf (c :: rest) || occurs_in pat rest) = false := h
      rw [Bool.or_eq_false_iff] at h2
      simp only [str_replace_fuel]
      rw [if_neg, ih rest h2.2]
      intro hc
      exact absurd hc.1 (by simp [h2.1])

theorem str_replace_fuel_strip (pat : List Char) :
    ∀ (fuel : Nat) (l : List Char), l.length ≤ fuel →
      str_replace_fuel pat [] fuel l = strip_all_occurrences pat l := by
  intro fuel
  induction fuel with
  | zero =>
    intro l h
    have hl : l = [] := List.eq_nil_of_length_eq_zero (Nat.le_zero.mp h)
    subst hl
    simp [str_replace_fuel, strip_all_occurrences]
  | succ f ih =>
    intro l h
    cases l with
    | nil => simp [str_replace_fuel, strip_all_occurrences]
    | cons c rest =>
      by_cases hc : pat.isPrefixOf (c :: rest) ∧ pat ≠ []
      · have hp : 0 < pat.length := List.length_pos.mpr hc.2
        have hlen : (List.drop pat.length (c :: rest)).length ≤ f := by
          simp only [List.length_drop, List.length_cons]
          simp only [List.length_cons] at h
          omega
        simp only [str_replace_fuel, strip_all_occurrences]
        rw [if_pos hc, dif_pos hc, List.nil_append, ih _ hlen]
      · have hlen : rest.length ≤ f := by
          simp only [List.length_cons] at h
          omega
        simp only [str_replace_fuel, strip_all_occurrences]
        rw [if_neg hc, dif_neg hc, ih _ hlen]

theorem join_cons_str (x : String) (xs : List String) :
    String.join (x :: xs) = x ++ String.join xs := by
  rw [String.join_eq, String.join_eq]
  apply String.ext
  simp

theorem join_enumFrom_aux :
    ∀ (l : List String) (k T : Nat), T = k + l.length - 1 → l ≠ [] →
      String.join ((List.enumFrom k l).map
        (fun p => if p.1 < T then p.2 ++ "." else p.2)) =
      join_labels_spec l := by
  intro l
  induction l with
  | nil => intro k T _ hne; exact absurd rfl hne
  | cons a t ih =>
    intro k T hT _
    cases t with
    | nil =>
      have hk : T = k := by simpa using hT
      show String.join [if k < T then a ++ "." else a] = join_labels_spec [a]
      rw [if_neg (by omega), join_cons_str]
      simp [join_labels_spec, String.join]
    | cons b t2 =>
      have hstep : List.enumFrom k (a :: b :: t2) =
          (k, a) :: List.enumFrom (k + 1) (b :: t2) := rfl
      rw [hstep, List.map_cons, join_cons_str]
      have hcond : k < T := by simp at hT; omega
      show (if k < T then a ++ "." else a) ++ _ = _
      rw [if_pos hcond]
      rw [ih (k + 1) T (by simp at hT ⊢; omega) (by simp)]
      show (a ++ ".") ++ join_labels_spec (b :: t2) = join_labels_spec (a :: b :: t2)
      rfl

/-! ### Claim theorems -/

/-- C1: for every map state, name and locator, update fails with a
ValidationError exactly when the locator decodes to a classification that is
versionable (FilesContainer or NrsMapContainer content type, or Register
data type) and carries no version anchor; with an anchor present or a
non-versionable classification, update does not fail with a
ValidationError. -/
theorem update_validation_error_iff (P : LinkDecoder) (m : NrsMap) (n L : String)
    (u : ParsedUrl) (h : P L = Except.ok u) :
    failsValidation (m.update P n L).2 = true ↔
      u.content_version = none ∧
        (u.content_type = ContentType.FilesContainer ∨
          u.content_type = ContentType.NrsMapContainer ∨
          u.data_type = DataType.Register) := by
  rcases u with ⟨ct, dt, cv⟩
  cases cv with
  | some v =>
    simp [NrsMap.update, validate_nrs_link, h, failsValidation]
  | none =>
    cases ct <;> cases dt <;>
      simp [NrsMap.update, validate_nrs_link, h, failsValidation,
        Error.isValidationError]

theorem update_validation_error_iff_witness :
    decoder_files_unversioned "safe://x" =
        Except.ok ⟨ContentType.FilesContainer, DataType.File, none⟩ ∧
      (failsValidation
          (map_empty.update decoder_files_unversioned "name" "safe://x").2 = true ↔
        (⟨ContentType.FilesContainer, DataType.File, none⟩ : ParsedUrl).content_version
            = none ∧
          ((⟨ContentType.FilesContainer, DataType.File, none⟩ : ParsedUrl).content_type
              = ContentType.FilesContainer ∨
            (⟨ContentType.FilesContainer, DataType.File, none⟩ : ParsedUrl).content_type
              = ContentType.NrsMapContainer ∨
            (⟨ContentType.FilesContainer, DataType.File, none⟩ : ParsedUrl).data_type
              = DataType.Register)) :=
  ⟨rfl, update_validation_error_iff decoder_files_unversioned map_empty "name"
    "safe://x" ⟨ContentType.FilesContainer, DataType.File, none⟩ rfl⟩

/-- C2: a successful update stores exactly the given locator under the
derived subname key, so looking that key up through get_link_for afterwards
returns the locator, and the value the update returned is the locator
itself. -/
theorem update_roundtrip (P : LinkDecoder) (m : NrsMap) (n L v : String)
    (h : (m.update P n L).2 = Except.ok v) :
    (m.update P n L).1.get_link_for (parse_out_subnames n) = Except.ok L ∧ v = L := by
  cases hval : validate_nrs_link P L with
  | error e =>
    rw [show (m.update P n L).2 = Except.error e from by simp [NrsMap.update, hval]] at h
    exact absurd h (by simp)
  | ok u =>
    have h1 : (m.update P n L).1 = ⟨m.map.insert (parse_out_subnames n) L⟩ := by
      simp [NrsMap.update, hval]
    have h2 : (m.update P n L).2 = Except.ok L := by
      simp [NrsMap.update, hval]
    rw [h2] at h
    refine ⟨?_, (Except.ok.inj h).symm⟩
    rw [h1]
    simp [NrsMap.get_link_for, AList.lookup_insert]

theorem update_roundtrip_witness :
    (map_empty.update decoder_raw_unversioned "sub.example" "safe://x").2 =
        Except.ok "safe://x" ∧
      ((map_empty.update decoder_raw_unversioned "sub.example" "safe://x").1.get_link_for
          (parse_out_subnames "sub.example") = Except.ok "safe://x" ∧
        "safe://x" = "safe://x") :=
  ⟨by decide, update_roundtrip decoder_raw_unversioned map_empty "sub.example"
    "safe://x" "safe://x" (by decide)⟩

/-- C3 counterexample: the name "asafe://b.c" starts with no scheme prefix,
yet parse_out_subnames does not return its first k-1 dot-separated labels
joined with dots, because str::replace deletes the interior occurrence of
"safe://" before splitting. -/
theorem parse_out_subnames_literal_labels_cex :
    scheme_chars.isPrefixOf ("asafe://b.c").data = false ∧
      parse_out_subnames "asafe://b.c" ≠
        String.mk (join_with_dot ((split_on_dot ("asafe://b.c").data).dropLast)) := by
  decide

/-- C3 (amended): for every name that contains no occurrence of the
substring "safe://", parse_out_subnames returns the first k-1 of its k
dot-separated labels joined with dots (the empty string for a single
label), taking labels literally with no trimming, case-folding, or
rejection of empty labels. -/
theorem parse_out_subnames_literal_labels (n : String)
    (h : occurs_in scheme_chars n.data = false) :
    parse_out_subnames n =
      String.mk (join_with_dot ((split_on_dot n.data).dropLast)) := by
  show String.mk (join_with_dot
      ((split_on_dot (str_replace scheme_chars [] n.data)).dropLast)) = _
  unfold str_replace
  rw [str_replace_fuel_id scheme_chars [] n.data.length n.data h]

theorem parse_out_subnames_literal_labels_witness :
    occurs_in scheme_chars ("sub..Sub.example").data = false ∧
      parse_out_subnames "sub..Sub.example" =
        String.mk (join_with_dot ((split_on_dot ("sub..Sub.example").data).dropLast)) :=
  ⟨by decide, parse_out_subnames_literal_labels "sub..Sub.example" (by decide)⟩

/-- C4: when update fails with a ValidationError, the map state is exactly
the state before the call. -/
theorem update_validation_error_preserves_map (P : LinkDecoder) (m : NrsMap)
    (n L : String) (e : Error) (h : (m.update P n L).2 = Except.error e)
    (hv : e.isValidationError = true) : (m.update P n L).1 = m := by
  cases hval : validate_nrs_link P L with
  | error e2 => simp [NrsMap.update, hval]
  | ok u => simp [NrsMap.update, hval] at h

theorem update_validation_error_preserves_map_witness :
    (map_example.update decoder_files_unversioned "a.b" "safe://x").2 =
        Except.error (Error.InvalidInput
          "The linked content (FilesContainer) is versionable, therefore NRS requires the link to specify a hash: \"safe://x\"") ∧
      Error.isValidationError (Error.InvalidInput
          "The linked content (FilesContainer) is versionable, therefore NRS requires the link to specify a hash: \"safe://x\"") = true ∧
      (map_example.update decoder_files_unversioned "a.b" "safe://x").1 = map_example :=
  ⟨by decide, by decide,
    update_validation_error_preserves_map decoder_files_unversioned map_example
      "a.b" "safe://x"
      (Error.InvalidInput
        "The linked content (FilesContainer) is versionable, therefore NRS requires the link to specify a hash: \"safe://x\"")
      (by decide) (by decide)⟩

/-- C5: removing an absent path fails with NotFound and leaves the map
unchanged; removing a present path succeeds, returns the prior value, and a
subsequent get_link_for on that path fails with NotFound. -/
theorem nrs_map_remove_subname_cases (m : NrsMap) (p : String) :
    (m.map.lookup p = none →
      (m.nrs_map_remove_subname p).1 = m ∧
        failsNotFound (m.nrs_map_remove_subname p).2 = true) ∧
      (∀ v, m.map.lookup p = some v →
        (m.nrs_map_remove_subname p).2 = Except.ok v ∧
          failsNotFound ((m.nrs_map_remove_subname p).1.get_link_for p) = true) := by
  constructor
  · intro hn
    simp [NrsMap.nrs_map_remove_subname, hn, failsNotFound, Error.isNotFound]
  · intro v hv
    simp [NrsMap.nrs_map_remove_subname, hv, failsNotFound, Error.isNotFound,
      NrsMap.get_link_for]

theorem nrs_map_remove_subname_cases_witness :
    ((map_empty.nrs_map_remove_subname "x").1 = map_empty ∧
        failsNotFound (map_empty.nrs_map_remove_subname "x").2 = true) ∧
      ((map_example.nrs_map_remove_subname "sub").2 = Except.ok "safe://eg2" ∧
        failsNotFound ((map_example.nrs_map_remove_subname "sub").1.get_link_for "sub")
          = true) :=
  ⟨(nrs_map_remove_subname_cases map_empty "x").1 (by decide),
    (nrs_map_remove_subname_cases map_example "sub").2 "safe://eg2" (by decide)⟩

/-- C6: get_link_for is an exact-match lookup: it returns the locator
stored under exactly the requested key when one exists and fails with the
NotFound ContentError otherwise, regardless of entries at any other
(for example ancestor) key. -/
theorem get_link_for_exact_match (m : NrsMap) (p : String) :
    (∀ v, m.map.lookup p = some v → m.get_link_for p = Except.ok v) ∧
      (m.map.lookup p = none →
        m.get_link_for p = Except.error (Error.ContentError
          ("Link not found in NRS Map Container for: " ++ p))) := by
  constructor
  · intro v hv
    simp [NrsMap.get_link_for, hv]
  · intro hn
    simp [NrsMap.get_link_for, hn]

theorem get_link_for_exact_match_witness :
    map_example.get_link_for "sub" = Except.ok "safe://eg2" ∧
      map_example.get_link_for "a.sub" = Except.error (Error.ContentError
        ("Link not found in NRS Map Container for: " ++ "a.sub")) :=
  ⟨(get_link_for_exact_match map_example "sub").1 "safe://eg2" (by decide),
    (get_link_for_exact_match map_example "a.sub").2 (by decide)⟩

/-- C7: the default resolution, resolving the empty label sequence, and
looking up the empty key all return the very same result on every map
state. -/
theorem default_link_resolution_equivalence (m : NrsMap) :
    m.get_default_link = m.resolve_for_subnames [] ∧
      m.resolve_for_subnames [] = m.get_link_for "" :=
  ⟨rfl, rfl⟩

/-- C8 counterexample: on "a.safe://b.c" the code does not merely strip a
leading scheme prefix before the split-drop-rejoin: str::replace also
deletes the interior "safe://". -/
theorem derive_subname_path_prefix_only_cex :
    parse_out_subnames "a.safe://b.c" ≠ derive_subname_path_claim "a.safe://b.c" := by
  decide

/-- C8 (amended): for every full name, parse_out_subnames removes every
occurrence of the substring "safe://" from the name (in particular a leading
scheme prefix) and then performs the split-drop-last-rejoin algorithm on the
remainder. -/
theorem parse_out_subnames_strips_all_occurrences (n : String) :
    parse_out_subnames n =
      String.mk (join_with_dot
        ((split_on_dot (strip_all_occurrences scheme_chars n.data)).dropLast)) := by
  show String.mk (join_with_dot
      ((split_on_dot (str_replace scheme_chars [] n.data)).dropLast)) = _
  unfold str_replace
  rw [str_replace_fuel_strip scheme_chars n.data.length n.data (Nat.le_refl _)]

/-- C9: sub_names_vec_to_str joins the labels in order with a dot between
consecutive labels; the empty sequence gives the empty string and a single
label is returned unchanged. -/
theorem sub_names_vec_to_str_eq_join_labels_spec (sub_names : List SubName) :
    sub_names_vec_to_str sub_names = join_labels_spec sub_names := by
  cases sub_names with
  | nil => rfl
  | cons a t =>
    show (if !(a :: t).isEmpty then
        String.join (((a :: t).enum).map
          (fun p => if p.1 < (a :: t).length - 1 then p.2 ++ "." else p.2))
      else "") = _
    rw [if_pos (by simp)]
    exact join_enumFrom_aux (a :: t) 0 ((a :: t).length - 1) (by omega) (by simp)

/-- C10: a successful update changes at most the binding of the derived
subname key, and remove changes at most the binding of the removed path;
every other key's binding is left exactly as before. -/
theorem update_remove_frame (P : LinkDecoder) (m : NrsMap) (n L p q v : String) :
    ((m.update P n L).2 = Except.ok v → q ≠ parse_out_subnames n →
        (m.update P n L).1.map.lookup q = m.map.lookup q) ∧
      (q ≠ p → (m.nrs_map_remove_subname p).1.map.lookup q = m.map.lookup q) := by
  constructor
  · intro _ hne
    cases hval : validate_nrs_link P L with
    | error e => simp [NrsMap.update, hval]
    | ok u =>
      simp only [NrsMap.update, hval]
      exact AList.lookup_insert_ne hne
  · intro hne
    cases hl : m.map.lookup p with
    | none => simp [NrsMap.nrs_map_remove_subname, hl]
    | some w =>
      simp only [NrsMap.nrs_map_remove_subname, hl]
      exact AList.lookup_erase_ne hne

theorem update_remove_frame_witness :
    ((map_example.update decoder_raw_unversioned "new.example" "safe://x").2 =
          Except.ok "safe://x" ∧
        "sub" ≠ parse_out_subnames "new.example" ∧
        (map_example.update decoder_raw_unversioned "new.example" "safe://x").1.map.lookup
            "sub" = map_example.map.lookup "sub") ∧
      ("sub" ≠ "other" ∧
        (map_example.nrs_map_remove_subname "other").1.map.lookup "sub" =
          map_example.map.lookup "sub") :=
  ⟨⟨by decide, by decide,
      (update_remove_frame decoder_raw_unversioned map_example "new.example"
        "safe://x" "other" "sub" "safe://x").1 (by decide) (by decide)⟩,
    ⟨by decide,
      (update_remove_frame decoder_raw_unversioned map_example "new.example"
        "safe://x" "other" "sub" "safe://x").2 (by decide)⟩⟩
